import Mathlib

/-!
Verification of the resilience layer of the 0debt users-service.

The definitions below are a shallow embedding of the TypeScript source:
* `CircuitBreaker` and its operations embed src/lib/circuitBreaker.ts;
* `notifyPreferencesInit` embeds the notification client (notificationClient.ts);
* `register` embeds the POST /register handler of src/routes/auth.ts;
* `loginAttempt` and the throttle-store operations embed the POST /login
  handler of src/routes/auth.ts together with the Redis INCR/EXPIRE semantics
  it relies on;
* `getInternalUser` embeds the GET /internal/users/:id cache-aside handler of
  src/routes/users.ts;
* `deleteAccount` embeds the DELETE /:id saga handler of src/routes/users.ts;
* the `*Body` definitions embed the MongoDB read projections feeding each
  success response of the user read/update endpoints.

Time is modelled as a natural number (milliseconds for the breaker, seconds
for the throttle window); `Date.now()` becomes an explicit `now` argument.
A JavaScript exception escaping a handler is modelled as `Except.error ()`.
-/

/-! ## Circuit breaker (src/lib/circuitBreaker.ts) -/

/-- The three breaker states, as in the TS union type. -/
inductive BreakerState
  | CLOSED
  | OPEN
  | HALF_OPEN
deriving DecidableEq, Repr

/-- State of one `CircuitBreaker` instance.  `failures`, `state` and
`nextAttempt` are the mutable fields; `failureThreshold` and `cooldownTime`
are the constructor parameters (defaults 3 and 30000). -/
structure CircuitBreaker where
  failures : Nat
  state : BreakerState
  nextAttempt : Nat
  failureThreshold : Nat
  cooldownTime : Nat
deriving DecidableEq, Repr

/-- A freshly constructed breaker: `failures = 0`, state CLOSED,
`nextAttempt = 0`. -/
def mkBreaker (failureThreshold cooldownTime : Nat) : CircuitBreaker :=
  { failures := 0, state := .CLOSED, nextAttempt := 0,
    failureThreshold := failureThreshold, cooldownTime := cooldownTime }

/-- Embedding of `canRequest()`: when OPEN, permits (and moves to HALF_OPEN)
only if `Date.now() > nextAttempt`, strictly; otherwise returns false.  In
any other state it returns true without changing anything.  Returns the
boolean result together with the updated breaker. -/
def canRequest (b : CircuitBreaker) (now : Nat) : Bool × CircuitBreaker :=
  match b.state with
  | .OPEN =>
      if b.nextAttempt < now then (true, { b with state := .HALF_OPEN })
      else (false, b)
  | _ => (true, b)

/-- Embedding of the breaker method the TS source calls `success()`:
reset `failures` to 0 and close the circuit. -/
def recordSuccess (b : CircuitBreaker) : CircuitBreaker :=
  { b with failures := 0, state := .CLOSED }

/-- Embedding of the breaker method the TS source calls `failure()`:
increment `failures`; on reaching the
threshold, open the circuit and set `nextAttempt = Date.now() + cooldownTime`. -/
def recordFailure (b : CircuitBreaker) (now : Nat) : CircuitBreaker :=
  let f := b.failures + 1
  if b.failureThreshold ≤ f then
    { b with failures := f, state := .OPEN, nextAttempt := now + b.cooldownTime }
  else
    { b with failures := f }

/-- One externally observable breaker operation, tagged with the clock value
at which it runs. -/
inductive BreakerOp
  | opSuccess
  | opFailure (now : Nat)
  | opAcquire (now : Nat)
deriving DecidableEq, Repr

/-- Apply a single operation to a breaker. -/
def applyOp (b : CircuitBreaker) : BreakerOp → CircuitBreaker
  | .opSuccess => recordSuccess b
  | .opFailure now => recordFailure b now
  | .opAcquire now => (canRequest b now).2

/-- Run a finite sequence of breaker operations. -/
def runOps (b : CircuitBreaker) (ops : List BreakerOp) : CircuitBreaker :=
  ops.foldl applyOp b

/-- Folding step counting `recordFailure` calls since the most recent
`recordSuccess`. -/
def countStep (n : Nat) : BreakerOp → Nat
  | .opSuccess => 0
  | .opFailure _ => n + 1
  | .opAcquire _ => n

/-- Number of `recordFailure` calls in `ops` after the last `recordSuccess`
(or since the start when there is none). -/
def countSinceSuccess (ops : List BreakerOp) : Nat :=
  ops.foldl countStep 0

/-- The reachability invariant of the breaker: whenever the circuit is OPEN
or HALF_OPEN, at least `failureThreshold` failures have accumulated. -/
def brInv (b : CircuitBreaker) : Prop :=
  (b.state = .OPEN ∨ b.state = .HALF_OPEN) → b.failureThreshold ≤ b.failures

/-! ## Notification gateway (src/lib/notificationClient.ts) -/

/-- Outcome of the `fetch` to the notifications service: a 2xx response
(`res.ok`), a non-2xx response, or a thrown transport error. -/
inductive FetchOutcome
  | okResponse
  | httpFail
  | transportFail
deriving DecidableEq, Repr

/-- The record returned by `notifyPreferencesInit`.  The TS object carries a
`fallback` field only on the breaker-rejected branch; an absent field is
modelled as `false`. -/
structure NotifyResult where
  ok : Bool
  fallback : Bool
  state : BreakerState
deriving DecidableEq, Repr

/-- Embedding of `notifyPreferencesInit(userId, email)`.  The module-level
breaker is passed in and returned explicitly; the network outcome is an
argument.  Mirrors the source branch by branch, including the literal `ok`
values each `return` statement carries. -/
def notifyPreferencesInit (b : CircuitBreaker) (now : Nat) (outcome : FetchOutcome) :
    NotifyResult × CircuitBreaker :=
  let (allowed, b1) := canRequest b now
  if !allowed then
    ({ ok := false, fallback := true, state := b1.state }, b1)
  else
    match outcome with
    | .httpFail =>
        let b2 := recordFailure b1 now
        ({ ok := false, fallback := false, state := b2.state }, b2)
    | .okResponse =>
        let b2 := recordSuccess b1
        ({ ok := false, fallback := false, state := b2.state }, b2)
    | .transportFail =>
        let b2 := recordFailure b1 now
        ({ ok := true, fallback := false, state := b2.state }, b2)

/-! ## Registration (src/routes/auth.ts, POST /register) -/

/-- Responses the register handler can produce after body validation. -/
inductive RegisterResponse
  | emailTaken
  | created
deriving DecidableEq, Repr

/-- Embedding of the POST /register handler after schema validation: check
for an existing user, insert, then (outside test/CI environments) await the
notification call inside a try/catch whose result is only logged.  The
`notifyThrows` flag models `notifyPreferencesInit` itself rejecting, which
the surrounding catch swallows.  Every path after a successful insert ends
in the 201 created response. -/
def register (emailExists testEnv : Bool) (b : CircuitBreaker) (now : Nat)
    (outcome : FetchOutcome) (notifyThrows : Bool) :
    RegisterResponse × CircuitBreaker :=
  if emailExists then (.emailTaken, b)
  else if testEnv then (.created, b)
  else if notifyThrows then (.created, b)
  else
    let (_res, b2) := notifyPreferencesInit b now outcome
    (.created, b2)

/-! ## Login throttle (src/routes/auth.ts, POST /login) -/

/-- Contents of the Redis key `login_attempts:` + email: current count and,
when EXPIRE has been applied, the absolute expiry time in seconds. -/
structure ThrottleKey where
  count : Nat
  expiresAt : Option Nat
deriving DecidableEq, Repr

/-- Redis key liveness: a key with an expiry is gone once `now` has reached
it; a key without expiry persists. -/
def liveEntry (e : Option ThrottleKey) (now : Nat) : Option ThrottleKey :=
  match e with
  | none => none
  | some k =>
      match k.expiresAt with
      | some t => if t ≤ now then none else some k
      | none => some k

/-- Redis INCR on the attempts key: a missing (or expired) key becomes 1
with no TTL; a live key is incremented keeping its TTL.  Returns the
post-increment value and the new store. -/
def incr (e : Option ThrottleKey) (now : Nat) : Nat × Option ThrottleKey :=
  match liveEntry e now with
  | none => (1, some { count := 1, expiresAt := none })
  | some k => (k.count + 1, some { count := k.count + 1, expiresAt := k.expiresAt })

/-- Redis EXPIRE on the attempts key: sets the absolute expiry on a live
key; a no-op on a missing key. -/
def expire (e : Option ThrottleKey) (now secs : Nat) : Option ThrottleKey :=
  match liveEntry e now with
  | none => none
  | some k => some { count := k.count, expiresAt := some (now + secs) }

/-- Availability of the volatile store as seen by the login handler: the
client is null (`redis` falsy), the client is present but its commands
throw (caught by the handler's try/catch), or commands succeed. -/
inductive StoreAvail
  | absent
  | failing
  | reachable
deriving DecidableEq, Repr

/-- Responses of the login handler relevant to throttling: 429, 401, 200. -/
inductive LoginResponse
  | rateLimited
  | badCreds
  | okToken
deriving DecidableEq, Repr

/-- Embedding of the POST /login handler: when the store client exists and
its commands succeed, INCR the attempts key, set a 60 s expiry exactly when
the post-increment value is 1, and reject with 429 when it exceeds 5;
otherwise fall through to credential verification (`credsOk` condenses user
lookup plus password check).  A null client skips the block; a command
failure is swallowed by the handler's catch. -/
def loginAttempt (avail : StoreAvail) (e : Option ThrottleKey) (now : Nat)
    (credsOk : Bool) : LoginResponse × Option ThrottleKey :=
  match avail with
  | .absent => (if credsOk then .okToken else .badCreds, e)
  | .failing => (if credsOk then .okToken else .badCreds, e)
  | .reachable =>
      let (n, e1) := incr e now
      let e2 := if n = 1 then expire e1 now 60 else e1
      if 5 < n then (.rateLimited, e2)
      else (if credsOk then .okToken else .badCreds, e2)

/-- Run a sequence of login attempts against the reachable store, threading
the key state; each attempt is a time together with whether the submitted
credentials are correct.  Returns the final store and the response list. -/
def runLogins (e : Option ThrottleKey) : List (Nat × Bool) →
    Option ThrottleKey × List LoginResponse
  | [] => (e, [])
  | (t, c) :: rest =>
      let (r, e1) := loginAttempt .reachable e t c
      let (ef, rs) := runLogins e1 rest
      (ef, r :: rs)

/-! ## User records and response projections (src/routes/users.ts) -/

/-- Value of one MongoDB document field, as far as the responses need it. -/
inductive FieldValue
  | vStr (s : String)
  | vList (l : List String)
deriving DecidableEq, Repr

/-- A stored user document.  Fields follow the object built by the register
handler's `insertOne` (plus the `_id` MongoDB assigns). -/
structure UserRecord where
  id : String
  email : String
  passwordHash : String
  name : String
  avatar : String
  plan : String
  addons : List String
  createdAt : String
  updatedAt : String
deriving DecidableEq, Repr

/-- The full stored document of a user, as a field list. -/
def userDoc (u : UserRecord) : List (String × FieldValue) :=
  [("_id", .vStr u.id), ("email", .vStr u.email),
   ("passwordHash", .vStr u.passwordHash), ("name", .vStr u.name),
   ("avatar", .vStr u.avatar), ("plan", .vStr u.plan),
   ("addons", .vList u.addons), ("createdAt", .vStr u.createdAt),
   ("updatedAt", .vStr u.updatedAt)]

/-- MongoDB exclusion projection: drops from the document every field named
in `excluded` and keeps the rest. -/
def applyExclusion (doc : List (String × FieldValue)) (excluded : List String) :
    List (String × FieldValue) :=
  doc.filter (fun kv => !(excluded.contains kv.1))

/-- Field names present in a response document. -/
def docKeys (doc : List (String × FieldValue)) : List String :=
  doc.map Prod.fst

/-- The explicit five-field projection the internal-users handler builds and
caches: id, name, email, avatar, plan. -/
structure UserProjection where
  id : String
  name : String
  email : String
  avatar : String
  plan : String
deriving DecidableEq, Repr

/-- Construction of the `response` object of GET /internal/users/:id from a
found record. -/
def projectUser (u : UserRecord) : UserProjection :=
  { id := u.id, name := u.name, email := u.email, avatar := u.avatar,
    plan := u.plan }

/-- Response body of GET /internal/users/:id on the database path, as a
field list. -/
def internalBody (u : UserRecord) : List (String × FieldValue) :=
  [("id", .vStr u.id), ("name", .vStr u.name), ("email", .vStr u.email),
   ("avatar", .vStr u.avatar), ("plan", .vStr u.plan)]

/-- Success body of GET /me: the document read with projection
`passwordHash: 0`. -/
def meBody (u : UserRecord) : List (String × FieldValue) :=
  applyExclusion (userDoc u) ["passwordHash"]

/-- Success body of GET /users/:id: same `passwordHash: 0` projection. -/
def userByIdBody (u : UserRecord) : List (String × FieldValue) :=
  applyExclusion (userDoc u) ["passwordHash"]

/-- Success body of GET /users: each listed document is read with
projection `passwordHash: 0`. -/
def listBody (us : List UserRecord) : List (List (String × FieldValue)) :=
  us.map (fun u => applyExclusion (userDoc u) ["passwordHash"])

/-- Success body of PATCH /users/:id: `findOneAndUpdate` applies
`$set { name, updatedAt }` and returns the updated document with projection
`passwordHash: 0`. -/
def patchBody (u : UserRecord) (newName newUpdatedAt : String) :
    List (String × FieldValue) :=
  applyExclusion (userDoc { u with name := newName, updatedAt := newUpdatedAt })
    ["passwordHash"]

/-! ## Cache-aside read (src/routes/users.ts, GET /internal/users/:id) -/

/-- Observable result of the internal-users handler when it returns
normally. -/
inductive GetUserResp
  | badId
  | notFoundUser
  | okUser (p : UserProjection)
deriving DecidableEq, Repr

/-- Embedding of the GET /internal/users/:id handler.  `redisEnabled` is
whether the module-level client is non-null; `getFails` / `setFails` say
whether the corresponding awaited Redis command rejects.  The handler has no
try/catch, so a rejecting command propagates (`Except.error ()`).  `cache`
is the current value stored under the user's cache key, `db` the system of
record.  On normal return the pair carries the response and the cache value after
the request. -/
def getInternalUser (validId redisEnabled getFails setFails : Bool)
    (cache : Option UserProjection) (db : Option UserRecord) :
    Except Unit (GetUserResp × Option UserProjection) :=
  if !validId then .ok (.badId, cache)
  else if redisEnabled && getFails then .error ()
  else
    match (if redisEnabled then cache else none) with
    | some p => .ok (.okUser p, cache)
    | none =>
        match db with
        | none => .ok (.notFoundUser, cache)
        | some u =>
            let r := projectUser u
            if redisEnabled then
              if setFails then .error ()
              else .ok (.okUser r, some r)
            else .ok (.okUser r, cache)

/-! ## Deletion saga (src/routes/users.ts, DELETE /:id) -/

/-- Outcome of the debt-status call to the expenses service: a 2xx response
with its parsed `canDelete`, a non-2xx response with its status code, or a
thrown transport error. -/
inductive DebtCheck
  | okBody (canDelete : Bool)
  | status (code : Nat)
  | netError
deriving DecidableEq, Repr

/-- HTTP-level responses of the DELETE /:id handler. -/
inductive SagaResponse
  | invalidId
  | forbidden
  | conflict
  | internalError
  | notFoundUser
  | deleted
deriving DecidableEq, Repr

/-- Result of one saga run: the response, whether the local record is still
present afterwards, and whether the fire-and-forget analytics cleanup was
started. -/
structure SagaResult where
  response : SagaResponse
  present : Bool
  cleanupStarted : Bool
deriving DecidableEq, Repr

/-- Saga steps 2 and 3: `deleteOne` on the local record, then (only when a
row was deleted) fire the analytics cleanup without awaiting it, and
respond with success. -/
def localDeleteThenCleanup (present : Bool) : SagaResult :=
  if !present then { response := .notFoundUser, present := present, cleanupStarted := false }
  else { response := .deleted, present := false, cleanupStarted := true }

/-- Embedding of the DELETE /:id saga handler: id validation, ownership
check, the blocking debt check (2xx with `canDelete=false` aborts with 409;
a non-2xx status other than 404 or a transport error aborts with 500; 404
falls through), then the local delete and the detached cleanup.  `present`
says whether the user record exists in the system of record. -/
def deleteAccount (validId authorized : Bool) (debt : DebtCheck) (present : Bool) :
    SagaResult :=
  if !validId then { response := .invalidId, present := present, cleanupStarted := false }
  else if !authorized then { response := .forbidden, present := present, cleanupStarted := false }
  else
    match debt with
    | .okBody canDelete =>
        if !canDelete then
          { response := .conflict, present := present, cleanupStarted := false }
        else localDeleteThenCleanup present
    | .status code =>
        if code ≠ 404 then
          { response := .internalError, present := present, cleanupStarted := false }
        else localDeleteThenCleanup present
    | .netError => { response := .internalError, present := present, cleanupStarted := false }

/-- A concrete stored user, used to evaluate the handlers at explicit
inputs. -/
def sampleUser : UserRecord :=
  { id := "u1", email := "ann@mail.test", passwordHash := "h4sh", name := "Ann",
    avatar := "http://a/1", plan := "FREE", addons := [], createdAt := "t0",
    updatedAt := "t0" }

/-! ## Breaker lemmas -/

theorem applyOp_threshold (b : CircuitBreaker) (op : BreakerOp) :
    (applyOp b op).failureThreshold = b.failureThreshold := by
  obtain ⟨f, st, na, th, cd⟩ := b
  cases op with
  | opSuccess => rfl
  | opFailure now =>
      simp only [applyOp, recordFailure]
      split <;> rfl
  | opAcquire now =>
      cases st with
      | OPEN =>
          simp only [applyOp, canRequest]
          split <;> rfl
      | CLOSED => rfl
      | HALF_OPEN => rfl

theorem applyOp_failures (b : CircuitBreaker) (op : BreakerOp) :
    (applyOp b op).failures = countStep b.failures op := by
  obtain ⟨f, st, na, th, cd⟩ := b
  cases op with
  | opSuccess => rfl
  | opFailure now =>
      simp only [applyOp, recordFailure, countStep]
      split <;> rfl
  | opAcquire now =>
      cases st with
      | OPEN =>
          simp only [applyOp, canRequest, countStep]
          split <;> rfl
      | CLOSED => rfl
      | HALF_OPEN => rfl

theorem applyOp_inv (b : CircuitBreaker) (op : BreakerOp) (h : brInv b) :
    brInv (applyOp b op) := by
  obtain ⟨f, st, na, th, cd⟩ := b
  cases op with
  | opSuccess =>
      intro hs
      rcases hs with h1 | h1 <;> simp [applyOp, recordSuccess] at h1
  | opFailure now =>
      by_cases hth : th ≤ f + 1
      · intro _
        simp [applyOp, recordFailure, hth]
      · intro hs
        have hst : (st = BreakerState.OPEN ∨ st = BreakerState.HALF_OPEN) := by
          simpa [applyOp, recordFailure, hth] using hs
        have := h hst
        exact absurd (Nat.le_succ_of_le this) hth
  | opAcquire now =>
      cases st with
      | OPEN =>
          by_cases hn : na < now
          · intro _
            have := h (Or.inl rfl)
            simpa [applyOp, canRequest, hn] using this
          · intro hs
            have hst : ((⟨f, .OPEN, na, th, cd⟩ : CircuitBreaker).state = BreakerState.OPEN ∨
                (⟨f, .OPEN, na, th, cd⟩ : CircuitBreaker).state = BreakerState.HALF_OPEN) :=
              Or.inl rfl
            have := h hst
            simpa [applyOp, canRequest, hn] using this
      | CLOSED => exact h
      | HALF_OPEN => exact h

theorem runOps_inv (ops : List BreakerOp) (b : CircuitBreaker) (h : brInv b) :
    brInv (runOps b ops) := by
  induction ops generalizing b with
  | nil => exact h
  | cons op rest ih => exact ih (applyOp b op) (applyOp_inv b op h)

theorem runOps_threshold (ops : List BreakerOp) (b : CircuitBreaker) :
    (runOps b ops).failureThreshold = b.failureThreshold := by
  induction ops generalizing b with
  | nil => rfl
  | cons op rest ih =>
      have h1 : runOps b (op :: rest) = runOps (applyOp b op) rest := rfl
      rw [h1, ih, applyOp_threshold]

theorem runOps_failures (ops : List BreakerOp) (b : CircuitBreaker) :
    (runOps b ops).failures = ops.foldl countStep b.failures := by
  induction ops generalizing b with
  | nil => rfl
  | cons op rest ih =>
      have h1 : runOps b (op :: rest) = runOps (applyOp b op) rest := rfl
      rw [h1, ih, applyOp_failures]
      rfl

/-- C4: for every finite sequence of breaker operations from the initial
CLOSED state, the circuit is OPEN or HALF_OPEN only when at least
`failureThreshold` failures have been recorded since the last success (or
since creation); `recordSuccess` always yields CLOSED with `failures = 0`;
and one `recordFailure` in HALF_OPEN reopens the circuit, since the failure
count is never reset between HALF_OPEN attempts. -/
theorem breaker_state_machine (thr cd now : Nat) (ops : List BreakerOp) :
    (((runOps (mkBreaker thr cd) ops).state = .OPEN ∨
      (runOps (mkBreaker thr cd) ops).state = .HALF_OPEN) →
      thr ≤ countSinceSuccess ops) ∧
    ((recordSuccess (runOps (mkBreaker thr cd) ops)).state = .CLOSED ∧
     (recordSuccess (runOps (mkBreaker thr cd) ops)).failures = 0) ∧
    ((runOps (mkBreaker thr cd) ops).state = .HALF_OPEN →
      (recordFailure (runOps (mkBreaker thr cd) ops) now).state = .OPEN) := by
  have hinv : brInv (runOps (mkBreaker thr cd) ops) :=
    runOps_inv ops (mkBreaker thr cd)
      (by intro hs; rcases hs with h1 | h1 <;> simp [mkBreaker] at h1)
  have hth : (runOps (mkBreaker thr cd) ops).failureThreshold = thr :=
    runOps_threshold ops (mkBreaker thr cd)
  have hf : (runOps (mkBreaker thr cd) ops).failures = countSinceSuccess ops := by
    rw [runOps_failures]
    rfl
  refine ⟨?_, ⟨rfl, rfl⟩, ?_⟩
  · intro hs
    have h1 := hinv hs
    rw [hth, hf] at h1
    exact h1
  · intro hs
    have hge : thr ≤ (runOps (mkBreaker thr cd) ops).failures := by
      have h1 := hinv (Or.inr hs)
      rwa [hth] at h1
    have hcond : (runOps (mkBreaker thr cd) ops).failureThreshold ≤
        (runOps (mkBreaker thr cd) ops).failures + 1 := by
      rw [hth]
      exact Nat.le_succ_of_le hge
    simp [recordFailure, hcond]

/-- C4 witness: threshold 1, cooldown 100; one failure at time 0 then an
acquire at 101 leaves the breaker HALF_OPEN; the theorem gives the failure
bound and the HALF_OPEN-to-OPEN step. -/
theorem breaker_state_machine_witness :
    1 ≤ countSinceSuccess [BreakerOp.opFailure 0, BreakerOp.opAcquire 101] ∧
    (recordFailure (runOps (mkBreaker 1 100)
      [BreakerOp.opFailure 0, BreakerOp.opAcquire 101]) 200).state = .OPEN := by
  have h := breaker_state_machine 1 100 200 [BreakerOp.opFailure 0, BreakerOp.opAcquire 101]
  exact ⟨h.1 (Or.inr (by decide)), h.2.2 (by decide)⟩

/-- C5 counterexample: threshold 3, cooldown 100; three failures at time 0
open the circuit with `nextAttempt = openedAt + cooldown = 100`.  At the
exact boundary instant `now = 100` the claim says `tryAcquire` returns
true, but `canRequest` uses a strict comparison and returns false. -/
theorem canRequest_boundary_cex :
    (runOps (mkBreaker 3 100)
      [BreakerOp.opFailure 0, BreakerOp.opFailure 0, BreakerOp.opFailure 0]).state = .OPEN ∧
    (runOps (mkBreaker 3 100)
      [BreakerOp.opFailure 0, BreakerOp.opFailure 0, BreakerOp.opFailure 0]).nextAttempt = 100 ∧
    (canRequest (runOps (mkBreaker 3 100)
      [BreakerOp.opFailure 0, BreakerOp.opFailure 0, BreakerOp.opFailure 0]) 100).1 = false := by
  decide

/-- C5 amended: `canRequest` returns false exactly when the state is OPEN
and `now ≤ nextAttempt` (so the boundary instant is still rejected); when
OPEN and strictly past `nextAttempt` it returns true and moves to
HALF_OPEN; it never modifies the failure count; and `recordFailure` sets
`nextAttempt = now + cooldownTime` whenever it opens the circuit. -/
theorem canRequest_spec (b : CircuitBreaker) (now : Nat) :
    ((canRequest b now).1 = false ↔ b.state = .OPEN ∧ now ≤ b.nextAttempt) ∧
    (b.state = .OPEN → b.nextAttempt < now →
      (canRequest b now).1 = true ∧ (canRequest b now).2.state = .HALF_OPEN) ∧
    ((canRequest b now).2.failures = b.failures) ∧
    (b.failureThreshold ≤ b.failures + 1 →
      (recordFailure b now).nextAttempt = now + b.cooldownTime) := by
  obtain ⟨f, st, na, th, cd⟩ := b
  refine ⟨?_, ?_, ?_, ?_⟩
  · cases st with
    | OPEN =>
        by_cases hn : na < now
        · simp [canRequest, hn]
        · simp [canRequest, hn]
          omega
    | CLOSED => simp [canRequest]
    | HALF_OPEN => simp [canRequest]
  · intro hst hlt
    cases st with
    | OPEN =>
        have hn : na < now := hlt
        constructor <;> simp [canRequest, hn]
    | CLOSED => exact absurd hst (by simp)
    | HALF_OPEN => exact absurd hst (by simp)
  · cases st with
    | OPEN => by_cases hn : na < now <;> simp [canRequest, hn]
    | CLOSED => rfl
    | HALF_OPEN => rfl
  · intro hth
    have hth2 : th ≤ f + 1 := hth
    simp [recordFailure, hth2]

/-- C5 witness: an OPEN breaker with `nextAttempt = 100` probed at 101 is
permitted and ends HALF_OPEN; reopening at 101 sets `nextAttempt = 201`. -/
theorem canRequest_spec_witness :
    (canRequest ⟨3, .OPEN, 100, 3, 100⟩ 101).1 = true ∧
    (canRequest ⟨3, .OPEN, 100, 3, 100⟩ 101).2.state = .HALF_OPEN ∧
    (recordFailure ⟨3, .OPEN, 100, 3, 100⟩ 101).nextAttempt = 201 := by
  have h := canRequest_spec ⟨3, .OPEN, 100, 3, 100⟩ 101
  refine ⟨(h.2.1 rfl (by decide)).1, (h.2.1 rfl (by decide)).2, ?_⟩
  have h2 := h.2.2.2 (by decide)
  simpa using h2

/-- C1: evaluation of `notifyPreferencesInit` at the inputs where it
contradicts the claim.  With the default breaker (threshold 3, cooldown
30000) in its initial CLOSED state, the call is permitted; a success
response does call the breaker's success method, yet the returned record
has `ok = false`, and a transport failure does call the failure method, yet
the returned record has `ok = true`.  Only the non-2xx branch returns the
`ok` value the claim states. -/
theorem notify_ok_flag_bug :
    (notifyPreferencesInit (mkBreaker 3 30000) 0 .okResponse).2 =
      recordSuccess (mkBreaker 3 30000) ∧
    (notifyPreferencesInit (mkBreaker 3 30000) 0 .okResponse).1.ok = false ∧
    (notifyPreferencesInit (mkBreaker 3 30000) 0 .transportFail).2 =
      recordFailure (mkBreaker 3 30000) 0 ∧
    (notifyPreferencesInit (mkBreaker 3 30000) 0 .transportFail).1.ok = true ∧
    (notifyPreferencesInit (mkBreaker 3 30000) 0 .httpFail).2 =
      recordFailure (mkBreaker 3 30000) 0 ∧
    (notifyPreferencesInit (mkBreaker 3 30000) 0 .httpFail).1.ok = false := by
  decide

/-- C3: every registration request that creates a new user (the email is
not already taken) returns the created response, whatever the notification
collaborator does: breaker state, fetch outcome and even the notification
call throwing never change the handler's response. -/
theorem register_notification_independent (testEnv notifyThrows : Bool)
    (b : CircuitBreaker) (now : Nat) (outcome : FetchOutcome) :
    (register false testEnv b now outcome notifyThrows).1 = .created := by
  cases testEnv <;> cases notifyThrows <;> simp [register]

/-- C2: when the deletion saga's debt check answers 2xx with
`canDelete = false`, the handler responds 409 and neither deletes the local
record nor starts the analytics cleanup; when it answers a non-2xx status
other than 404, or the call throws, the handler responds 500, again with no
delete and no cleanup. -/
theorem saga_abort_paths (present : Bool) (code : Nat) (hcode : code ≠ 404) :
    deleteAccount true true (.okBody false) present =
      { response := .conflict, present := present, cleanupStarted := false } ∧
    deleteAccount true true (.status code) present =
      { response := .internalError, present := present, cleanupStarted := false } ∧
    deleteAccount true true .netError present =
      { response := .internalError, present := present, cleanupStarted := false } := by
  refine ⟨rfl, ?_, rfl⟩
  simp [deleteAccount, hcode]

/-- C2 witness: a 500 from the expenses service leaves an existing record
in place and answers with the internal error. -/
theorem saga_abort_paths_witness :
    deleteAccount true true (.status 500) true =
      { response := .internalError, present := true, cleanupStarted := false } :=
  (saga_abort_paths true 500 (by decide)).2.1

/-- C8: a 404 from the debt check makes the saga behave exactly as a 2xx
`canDelete = true` answer: the local delete runs (the record is gone
afterwards) and, when the record existed, the cleanup is started and the
response is the success one. -/
theorem saga_404_proceeds (present : Bool) :
    deleteAccount true true (.status 404) present =
      deleteAccount true true (.okBody true) present ∧
    (deleteAccount true true (.status 404) present).present = false ∧
    (present = true →
      deleteAccount true true (.status 404) present =
        { response := .deleted, present := false, cleanupStarted := true }) := by
  cases present with
  | false => exact ⟨rfl, rfl, fun h => by cases h⟩
  | true => exact ⟨rfl, rfl, fun _ => rfl⟩

/-- C8 witness: with the record present, the 404 path deletes it and
responds success. -/
theorem saga_404_proceeds_witness :
    deleteAccount true true (.status 404) true =
      { response := .deleted, present := false, cleanupStarted := true } :=
  (saga_404_proceeds true).2.2 rfl

/-! ## Throttle lemmas -/

theorem loginAttempt_first (t : Nat) (c : Bool) :
    loginAttempt .reachable none t c =
      (if c then .okToken else .badCreds,
       some { count := 1, expiresAt := some (t + 60) }) := by
  simp [loginAttempt, incr, liveEntry, expire]

theorem loginAttempt_mid (k T t : Nat) (c : Bool) (hk : k ≠ 0) (hk5 : k + 1 ≤ 5)
    (ht : t < T) :
    loginAttempt .reachable (some { count := k, expiresAt := some T }) t c =
      (if c then .okToken else .badCreds,
       some { count := k + 1, expiresAt := some T }) := by
  have hTle : ¬ T ≤ t := by omega
  have h1 : k + 1 ≠ 1 := by omega
  have h5 : ¬ 5 < k + 1 := by omega
  simp [loginAttempt, incr, liveEntry, hTle, h1, h5]

theorem loginAttempt_limit (k T t : Nat) (c : Bool) (hk : 5 < k + 1) (ht : t < T) :
    loginAttempt .reachable (some { count := k, expiresAt := some T }) t c =
      (.rateLimited, some { count := k + 1, expiresAt := some T }) := by
  have hTle : ¬ T ≤ t := by omega
  have h1 : k + 1 ≠ 1 := by omega
  simp [loginAttempt, incr, liveEntry, hTle, h1, hk]

/-- C7: the login throttle.  Against a reachable store the attempt counter
is updated before and independently of credential verification; the first
increment of a window installs the 60 s expiry; a post-increment value
above 5 is rejected with the rate-limit response and the counter is kept,
not reset; starting from an empty key, six attempts whose later five fall
within 60 s of the first produce five credential-determined responses and a
sixth that is rejected whatever its credentials; and when the store is
absent or its commands fail the attempt proceeds to credential
verification untouched. -/
theorem login_throttle_spec (e : Option ThrottleKey) (now : Nat) (c : Bool)
    (t1 t2 t3 t4 t5 t6 : Nat) (c1 c2 c3 c4 c5 c6 : Bool)
    (h2 : t2 < t1 + 60) (h3 : t3 < t1 + 60) (h4 : t4 < t1 + 60)
    (h5 : t5 < t1 + 60) (h6 : t6 < t1 + 60) :
    ((loginAttempt .reachable e now c).2 = (loginAttempt .reachable e now true).2) ∧
    (liveEntry e now = none →
      (loginAttempt .reachable e now c).2 =
        some { count := 1, expiresAt := some (now + 60) }) ∧
    (5 < (incr e now).1 →
      loginAttempt .reachable e now c = (.rateLimited, (incr e now).2)) ∧
    ((runLogins none [(t1, c1), (t2, c2), (t3, c3), (t4, c4), (t5, c5), (t6, c6)]).2 =
      [(if c1 then .okToken else .badCreds), (if c2 then .okToken else .badCreds),
       (if c3 then .okToken else .badCreds), (if c4 then .okToken else .badCreds),
       (if c5 then .okToken else .badCreds), .rateLimited]) ∧
    ((loginAttempt .absent e now c).1 = (if c then .okToken else .badCreds) ∧
     (loginAttempt .absent e now c).2 = e ∧
     (loginAttempt .failing e now c).1 = (if c then .okToken else .badCreds) ∧
     (loginAttempt .failing e now c).2 = e) := by
  refine ⟨?_, ?_, ?_, ?_, rfl, rfl, rfl, rfl⟩
  · simp only [loginAttempt]
    split <;> rfl
  · intro hlive
    have hincr : incr e now = (1, some { count := 1, expiresAt := none }) := by
      simp [incr, hlive]
    simp [loginAttempt, hincr, expire, liveEntry]
  · intro hn
    have h1 : (incr e now).1 ≠ 1 := by omega
    simp [loginAttempt, h1, hn]
  · have s1 := loginAttempt_first t1 c1
    have s2 := loginAttempt_mid 1 (t1 + 60) t2 c2 (by omega) (by omega) h2
    have s3 := loginAttempt_mid 2 (t1 + 60) t3 c3 (by omega) (by omega) h3
    have s4 := loginAttempt_mid 3 (t1 + 60) t4 c4 (by omega) (by omega) h4
    have s5 := loginAttempt_mid 4 (t1 + 60) t5 c5 (by omega) (by omega) h5
    have s6 := loginAttempt_limit 5 (t1 + 60) t6 c6 (by omega) h6
    simp [runLogins, s1, s2, s3, s4, s5, s6]

/-- C7 witness: six attempts at seconds 0..5 on an empty key, with mixed
credentials; the sixth is rejected. -/
theorem login_throttle_spec_witness :
    (runLogins none [(0, true), (1, true), (2, false), (3, true), (4, false), (5, true)]).2 =
      [.okToken, .okToken, .badCreds, .okToken, .badCreds, .rateLimited] := by
  have h := login_throttle_spec none 0 true 0 1 2 3 4 5 true true false true false true
    (by omega) (by omega) (by omega) (by omega) (by omega)
  simpa using h.2.2.2.1

/-- C10: the cache-aside read never caches a negative result.  Any run of
the handler that changes the stored cache value found a user in the system
of record, wrote exactly its five-field projection and answered with that
projection; with no user in the system of record the cache is left exactly
as it was; and a read immediately after such a miss, with the user now
present, serves and (when the store is on) caches the projection. -/
theorem cache_no_negative_caching (re gf sf : Bool)
    (cache cache2 : Option UserProjection) (db : Option UserRecord)
    (resp : GetUserResp) (u : UserRecord) :
    (getInternalUser true re gf sf cache db = .ok (resp, cache2) → cache2 ≠ cache →
      ∃ v, db = some v ∧ cache2 = some (projectUser v) ∧ resp = .okUser (projectUser v)) ∧
    (getInternalUser true re gf sf cache none = .ok (resp, cache2) → cache2 = cache) ∧
    (getInternalUser true re false false none (some u) =
      .ok (.okUser (projectUser u), if re then some (projectUser u) else none)) := by
  refine ⟨?_, ?_, ?_⟩
  · intro h hne
    cases re <;> cases gf <;> cases sf <;> cases cache <;> cases db <;>
      simp [getInternalUser] at h
    all_goals
      first
        | exact absurd h.2 hne
        | exact absurd h.2.symm hne
        | exact ⟨_, rfl, h.2, h.1⟩
        | exact ⟨_, rfl, h.2.symm, h.1.symm⟩
  · intro h
    cases re <;> cases gf <;> cases sf <;> cases cache <;>
      simp [getInternalUser] at h
    all_goals
      first
        | exact h.2
        | exact h.2.symm
  · cases re <;> rfl

/-- C10 witness: store on, empty cache, user present; the run returns the
projection and writes exactly it, exhibiting the existential of the
theorem. -/
theorem cache_no_negative_caching_witness :
    ∃ v, (some sampleUser : Option UserRecord) = some v ∧
      (some (projectUser sampleUser) : Option UserProjection) = some (projectUser v) ∧
      GetUserResp.okUser (projectUser sampleUser) = .okUser (projectUser v) :=
  (cache_no_negative_caching true false false none (some (projectUser sampleUser))
    (some sampleUser) (.okUser (projectUser sampleUser)) sampleUser).1 rfl (by simp)

/-- C9: no success body of the user read/update endpoints carries the
`passwordHash` field: the internal endpoint builds an explicit five-field
object, and GET /me, GET /users/:id, GET /users and PATCH /users/:id all
read with the `passwordHash: 0` exclusion projection. -/
theorem password_hash_excluded (u v w : UserRecord) (us : List UserRecord)
    (newName newUpdatedAt : String) :
    ((docKeys (internalBody u)).contains "passwordHash" = false) ∧
    ((docKeys (meBody u)).contains "passwordHash" = false) ∧
    ((docKeys (userByIdBody v)).contains "passwordHash" = false) ∧
    ((docKeys (patchBody w newName newUpdatedAt)).contains "passwordHash" = false) ∧
    ((listBody us).all
      (fun d => !((docKeys d).contains "passwordHash")) = true) := by
  refine ⟨rfl, rfl, rfl, rfl, ?_⟩
  induction us with
  | nil => rfl
  | cons x xs ih =>
      have hcons : listBody (x :: xs) =
          applyExclusion (userDoc x) ["passwordHash"] :: listBody xs := rfl
      rw [hcons, List.all_cons, ih]
      rfl
